import Mathlib

/-!
# Verification of the Solana deployment service core

A shallow embedding of the deployment-orchestration engine of the
`solana-service` repository, together with proofs of the specification
claims about it.

Text is modelled as `List Char`.  The JavaScript regular expressions used
by the source (`src/services/anchorDeployer.js`, `src/services/solanaCliWrapper.js`,
`src/services/projectManager.js`) are embedded as executable leftmost-match
scanners with the same greedy/backtracking behaviour as the specific
patterns in the source.  External processes and the filesystem are
modelled by explicit environments (`ExecResult`, `FundingEnv`, `CloneEnv`,
`OrchEnv`) and explicit state records (`CliState`, `WorldFS`).
-/

namespace SolanaService

/-! ## Character classes

The character classes of the source regexes, decided on the Unicode code
point (`Char.toNat`).  All inputs handled by the service are ASCII
process output.  Code points: '0' = 48, '9' = 57, '1' = 49, 'A' = 65,
'H' = 72, 'I' = 73, 'J' = 74, 'N' = 78, 'O' = 79, 'P' = 80, 'Z' = 90,
'a' = 97, 'k' = 107, 'l' = 108, 'm' = 109, 'z' = 122, '_' = 95.
-/

/-- Decides membership in a closed code-point range. -/
def between (lo hi : Nat) (c : Char) : Bool :=
  decide (lo ≤ c.toNat) && decide (c.toNat ≤ hi)

/-- The regex class `[0-9]` (`\d`). -/
def isDigitChar (c : Char) : Bool := between 48 57 c

/-- The regex class `[A-Za-z0-9]` used by the capture groups of the
labelled identifier patterns. -/
def isAlnumChar (c : Char) : Bool :=
  between 48 57 c || between 65 90 c || between 97 122 c

/-- The regex class `\w` = `[A-Za-z0-9_]`, which also determines the
word boundaries `\b` of the fallback token scans. -/
def isWordChar (c : Char) : Bool := isAlnumChar c || decide (c.toNat = 95)

/-- The base58 alphabet class `[1-9A-HJ-NP-Za-km-z]` of the fallback
token scans: alphanumeric characters without `0`, `O`, `I`, `l`. -/
def isBase58Char (c : Char) : Bool :=
  between 49 57 c || between 65 72 c || between 74 78 c ||
  between 80 90 c || between 97 107 c || between 109 122 c

/-- The regex class `\s` restricted to its ASCII members
(space, tab, line feed, vertical tab, form feed, carriage return). -/
def isSpaceChar (c : Char) : Bool :=
  decide (c.toNat = 32) || (decide (9 ≤ c.toNat) && decide (c.toNat ≤ 13))

/-- ASCII lower-casing on code points, the effect of the `i` regex flag
on the ASCII label literals of the source patterns. -/
def lowerNat (c : Char) : Nat :=
  if 65 ≤ c.toNat ∧ c.toNat ≤ 90 then c.toNat + 32 else c.toNat

/-- Case-insensitive character comparison (regex `i` flag). -/
def ciEq (a b : Char) : Bool := lowerNat a == lowerNat b

/-! ## Leftmost regex matching primitives -/

/-- Consume a literal label case-insensitively; returns the remainder of
the input on success. -/
def dropLabelCI : List Char → List Char → Option (List Char)
  | [], l => some l
  | _ :: _, [] => none
  | p :: ps, c :: cs => if ciEq p c then dropLabelCI ps cs else none

/-- Consume a literal label case-sensitively (patterns without the `i`
flag); returns the remainder of the input on success. -/
def dropLabelCS : List Char → List Char → Option (List Char)
  | [], l => some l
  | _ :: _, [] => none
  | p :: ps, c :: cs => if p.toNat == c.toNat then dropLabelCS ps cs else none

/-- Leftmost-match scan: try the position matcher `f` at every start
position from the left, returning the first success.  This is how a
JavaScript non-global `match` locates its match. -/
def scanMatch (f : List Char → Option (List Char)) : List Char → Option (List Char)
  | [] => none
  | c :: cs =>
    match f (c :: cs) with
    | some r => some r
    | none => scanMatch f cs

/-- The word-boundary test `\b` at the position after a candidate match:
satisfied at end of input or before a non-word character. -/
def boundaryAfter : List Char → Bool
  | [] => true
  | c :: _ => !isWordChar c

/-- Greedy counted repetition with backtracking for
`[1-9A-HJ-NP-Za-km-z]{lo,k}\b`: try the candidate lengths from `k` down
to `lo`, accepting the first whose characters are all base58 and which is
followed by a word boundary. -/
def tryRunDown (lo : Nat) (l : List Char) : Nat → Option (List Char)
  | 0 => none
  | k + 1 =>
    let cand := l.take (k + 1)
    if decide (lo ≤ k + 1) && (cand.length == k + 1) && cand.all isBase58Char &&
        boundaryAfter (l.drop (k + 1)) then
      some cand
    else
      tryRunDown lo l k

/-- Leftmost scan for `\b([1-9A-HJ-NP-Za-km-z]{lo,hi})\b` (taking the
first match of the global regex).  `prevWord` records whether the
character before the current position is a word character, which decides
the leading `\b`. -/
def scanBase58 (lo hi : Nat) : Bool → List Char → Option (List Char)
  | _, [] => none
  | prevWord, c :: cs =>
    if prevWord then
      scanBase58 lo hi (isWordChar c) cs
    else
      match tryRunDown lo (c :: cs) hi with
      | some t => some t
      | none => scanBase58 lo hi (isWordChar c) cs

/-- Position matcher for the labelled patterns of the form
`label\s*([A-Za-z0-9]{lo,hi})` (e.g. `/Program Id:\s*([A-Za-z0-9]{32,44})/i`):
the label, any whitespace, then a greedy alphanumeric capture with no
trailing boundary requirement. -/
def matchLabelAt (label : List Char) (lo hi : Nat) (l : List Char) : Option (List Char) :=
  match dropLabelCI label l with
  | none => none
  | some rest =>
    let run := (rest.dropWhile isSpaceChar).takeWhile isAlnumChar
    if decide (lo ≤ run.length) then some (run.take hi) else none

/-- Position matcher for the labelled patterns of the form
`label[:\s]+([A-Za-z0-9]{lo,hi})` (e.g. `/signature[:\s]+([A-Za-z0-9]{64,88})/i`). -/
def matchLabelSepAt (label : List Char) (lo hi : Nat) (l : List Char) : Option (List Char) :=
  match dropLabelCI label l with
  | none => none
  | some rest =>
    let seps := rest.takeWhile (fun c => decide (c.toNat = 58) || isSpaceChar c)
    if seps.length == 0 then none
    else
      let run := (rest.dropWhile (fun c => decide (c.toNat = 58) || isSpaceChar c)).takeWhile isAlnumChar
      if decide (lo ≤ run.length) then some (run.take hi) else none

/-- Position matcher for `/program\s+id[:\s]+([A-Za-z0-9]{32,44})/i`
(the fourth program-id pattern). -/
def matchProgramIdLooseAt (l : List Char) : Option (List Char) :=
  match dropLabelCI "program".data l with
  | none => none
  | some r1 =>
    if (r1.takeWhile isSpaceChar).length == 0 then none
    else
      match dropLabelCI "id".data (r1.dropWhile isSpaceChar) with
      | none => none
      | some r2 => matchLabelSepAt [] 32 44 r2

/-! ## Identifier extraction (`src/services/anchorDeployer.js`) -/

/-- The ordered labelled-pattern pass of `extractProgramId`:
`/Program Id:\s*([A-Za-z0-9]{32,44})/i`, `/Program:\s*([A-Za-z0-9]{32,44})/i`,
`/Deployed:\s*([A-Za-z0-9]{32,44})/i`, `/program\s+id[:\s]+([A-Za-z0-9]{32,44})/i`,
each tried over the whole output before moving to the next. -/
def labeledProgramId (output : List Char) : Option (List Char) :=
  match scanMatch (matchLabelAt "Program Id:".data 32 44) output with
  | some t => some t
  | none =>
  match scanMatch (matchLabelAt "Program:".data 32 44) output with
  | some t => some t
  | none =>
  match scanMatch (matchLabelAt "Deployed:".data 32 44) output with
  | some t => some t
  | none => scanMatch matchProgramIdLooseAt output

/-- `extractProgramId`: the labelled patterns in order, then the fallback
scan `/\b([1-9A-HJ-NP-Za-km-z]{32,44})\b/g` taking the first match. -/
def extractProgramId (output : List Char) : Option (List Char) :=
  match labeledProgramId output with
  | some t => some t
  | none => scanBase58 32 44 false output

/-- The ordered labelled-pattern pass of `extractSignature`:
`/Signature:\s*([A-Za-z0-9]{64,88})/i`, `/signature[:\s]+([A-Za-z0-9]{64,88})/i`,
`/tx[:\s]+([A-Za-z0-9]{64,88})/i`. -/
def labeledSignature (output : List Char) : Option (List Char) :=
  match scanMatch (matchLabelAt "Signature:".data 64 88) output with
  | some t => some t
  | none =>
  match scanMatch (matchLabelSepAt "signature".data 64 88) output with
  | some t => some t
  | none => scanMatch (matchLabelSepAt "tx".data 64 88) output

/-- `extractSignature`: the labelled patterns in order, then the fallback
scan `/\b([1-9A-HJ-NP-Za-km-z]{64,88})\b/g` taking the first match. -/
def extractSignature (output : List Char) : Option (List Char) :=
  match labeledSignature output with
  | some t => some t
  | none => scanBase58 64 88 false output

/-! ## Balance parsing (`src/services/solanaCliWrapper.js`) -/

/-- Value of a digit string as a natural number. -/
def digitsVal (l : List Char) : Nat :=
  l.foldl (fun a c => 10 * a + (c.toNat - 48)) 0

/-- The exact rational value of a decimal literal `d1.d2`. -/
def decValue (d1 d2 : List Char) : ℚ :=
  (digitsVal d1 : ℚ) + (digitsVal d2 : ℚ) / ((10 : ℚ) ^ d2.length)

/-- `\s+SOL` : at least one whitespace character, then the literal `SOL`
(case sensitive — the balance pattern has no `i` flag). -/
def spacesThenSOL (l : List Char) : Bool :=
  !(l.takeWhile isSpaceChar).isEmpty && "SOL".data.isPrefixOf (l.dropWhile isSpaceChar)

/-- Position matcher for `/(\d+\.?\d*)\s+SOL/`, returning the exact value
of the captured decimal.  The classes `\d`, `\.` and `\s` are pairwise
disjoint, so the greedy submatches admit no alternative backtracking
decomposition and the matcher is deterministic. -/
def matchBalanceAt (l : List Char) : Option ℚ :=
  let d1 := l.takeWhile isDigitChar
  if d1.isEmpty then none
  else
    match l.dropWhile isDigitChar with
    | '.' :: r2 =>
      if spacesThenSOL (r2.dropWhile isDigitChar) then
        some (decValue d1 (r2.takeWhile isDigitChar))
      else none
    | r1 => if spacesThenSOL r1 then some ((digitsVal d1 : ℚ)) else none

/-- Leftmost scan for the balance pattern (value of the first match). -/
def scanBalance : List Char → Option ℚ
  | [] => none
  | c :: cs =>
    match matchBalanceAt (c :: cs) with
    | some q => some q
    | none => scanBalance cs

/-! ## Line-based diagnostic extraction (`anchorDeployer.js`) -/

/-- JavaScript `haystack.includes(needle)`: substring test. -/
def containsSub (needle : List Char) : List Char → Bool
  | [] => needle.isEmpty
  | c :: cs => needle.isPrefixOf (c :: cs) || containsSub needle cs

/-- JavaScript `String.prototype.trim` on ASCII text. -/
def trimChars (l : List Char) : List Char :=
  ((l.dropWhile isSpaceChar).reverse.dropWhile isSpaceChar).reverse

/-- JavaScript `s.split('\n')` (`''.split('\n')` is `['']`). -/
def splitLines : List Char → List (List Char)
  | [] => [[]]
  | c :: cs =>
    if c.toNat == 10 then [] :: splitLines cs
    else
      match splitLines cs with
      | [] => [[c]]
      | l :: ls => (c :: l) :: ls

/-- The marker lines collected by `extractBuildErrors`: each of the three
`if` statements pushes the trimmed line independently. -/
def collectBuildErrs : List (List Char) → List (List Char)
  | [] => []
  | line :: rest =>
    (if containsSub "error:".data line || containsSub "error[".data line then [trimChars line] else []) ++
    (if containsSub "could not find".data line || containsSub "cannot find".data line then [trimChars line] else []) ++
    (if containsSub "Error:".data line then [trimChars line] else []) ++
    collectBuildErrs rest

/-- `extractBuildErrors`. -/
def extractBuildErrors (output : List Char) : List Char :=
  let errs := collectBuildErrs (splitLines output)
  if errs.isEmpty then "Build failed with unknown error".data
  else List.intercalate ['\n'] errs

/-- The marker lines collected by `extractDeploymentErrors`. -/
def collectDeployErrs : List (List Char) → List (List Char)
  | [] => []
  | line :: rest =>
    (if containsSub "Error:".data line || containsSub "error:".data line then [trimChars line] else []) ++
    (if containsSub "RPC".data line || containsSub "rpc".data line then [trimChars line] else []) ++
    (if containsSub "insufficient".data line || containsSub "balance".data line then [trimChars line] else []) ++
    collectDeployErrs rest

/-- `extractDeploymentErrors`. -/
def extractDeploymentErrors (output : List Char) : List Char :=
  let errs := collectDeployErrs (splitLines output)
  if errs.isEmpty then "Deployment failed with unknown error".data
  else List.intercalate ['\n'] errs

/-! ## Error taxonomy (`src/utils/errorHandler.js`, `src/config/constants.js`) -/

/-- The `ERROR_CODES` table. -/
inductive ErrCode where
  | INVALID_INPUT
  | CLONE_FAILED
  | NOT_ANCHOR_PROJECT
  | BUILD_FAILED
  | DEPLOY_FAILED
  | WALLET_ERROR
  | NETWORK_ERROR
  | TIMEOUT
  | SYSTEM_ERROR
  | INSUFFICIENT_BALANCE
deriving DecidableEq, Repr

/-- Structured `details` payloads attached to the error classes.
`balanceD` is the `{ address, balance, required }` object of
`InsufficientBalanceError`; `sizeD` is the `{ size, maxSize }` object of
the repository-size `CloneError`; `textD` carries a message string. -/
inductive ErrDetails where
  | noneD
  | textD (s : List Char)
  | pathD (path : List Char)
  | balanceD (address : List Char) (balance required : ℚ)
  | sizeD (size maxSize : ℚ)
deriving DecidableEq, Repr

/-- An `AppError`: code, message, details, captured log lines. -/
structure AppErr where
  code : ErrCode
  message : List Char
  details : ErrDetails
  logs : List (List Char)
deriving DecidableEq, Repr

/-- `CloneError` (code `CLONE_FAILED`). -/
def CloneError (message : List Char) (details : ErrDetails) (logs : List (List Char)) : AppErr :=
  ⟨.CLONE_FAILED, message, details, logs⟩

/-- `InvalidProjectError` (code `NOT_ANCHOR_PROJECT`). -/
def InvalidProjectError (message : List Char) (details : ErrDetails) : AppErr :=
  ⟨.NOT_ANCHOR_PROJECT, message, details, []⟩

/-- `BuildError` (code `BUILD_FAILED`). -/
def BuildError (message : List Char) (details : ErrDetails) (logs : List (List Char)) : AppErr :=
  ⟨.BUILD_FAILED, message, details, logs⟩

/-- `DeploymentError` (code `DEPLOY_FAILED`). -/
def DeploymentError (message : List Char) (details : ErrDetails) (logs : List (List Char)) : AppErr :=
  ⟨.DEPLOY_FAILED, message, details, logs⟩

/-- `WalletError` (code `WALLET_ERROR`). -/
def WalletError (message : List Char) (details : ErrDetails) : AppErr :=
  ⟨.WALLET_ERROR, message, details, []⟩

/-- `NetworkError` (code `NETWORK_ERROR`). -/
def NetworkError (message : List Char) (details : ErrDetails) : AppErr :=
  ⟨.NETWORK_ERROR, message, details, []⟩

/-- `InsufficientBalanceError` (code `INSUFFICIENT_BALANCE`). -/
def InsufficientBalanceError (message : List Char) (details : ErrDetails) : AppErr :=
  ⟨.INSUFFICIENT_BALANCE, message, details, []⟩

/-! ## Configuration constants (`src/config/constants.js`, defaults) -/

/-- `MIN_SOL_BALANCE` (default `2.0`). -/
def MIN_SOL_BALANCE : ℚ := 2

/-- `AIRDROP_AMOUNT` (default `2.0`). -/
def AIRDROP_AMOUNT : ℚ := 2

/-- `AIRDROP_MAX_RETRIES` (default `3`). -/
def AIRDROP_MAX_RETRIES : Nat := 3

/-- `MAX_REPO_SIZE_MB` (default `500`). -/
def MAX_REPO_SIZE_MB : ℚ := 500

/-- The `NETWORKS` table: `devnet` and `mainnet-beta`. -/
inductive Network where
  | devnet
  | mainnetBeta
deriving DecidableEq, Repr

/-! ## Process execution results

`executeCommand` either resolves with the captured standard output or
rejects (non-zero exit, spawn error, or timeout) with an error message.
The outcome of each external command is supplied by the environment. -/

/-- Outcome of one `executeCommand` invocation. -/
inductive ExecResult where
  | ok (stdout : List Char)
  | err (msg : List Char)
deriving DecidableEq, Repr

instance {ε α : Type} [DecidableEq ε] [DecidableEq α] : DecidableEq (Except ε α) := fun x y =>
  match x, y with
  | .ok a, .ok b =>
    if h : a = b then isTrue (by rw [h]) else isFalse (by intro he; cases he; exact h rfl)
  | .error a, .error b =>
    if h : a = b then isTrue (by rw [h]) else isFalse (by intro he; cases he; exact h rfl)
  | .ok _, .error _ => isFalse (by intro he; cases he)
  | .error _, .ok _ => isFalse (by intro he; cases he)

/-! ## Solana CLI wrapper (`src/services/solanaCliWrapper.js`) -/

/-- `getBalance`: on command success, parse the first `\d+\.?\d*\s+SOL`
token from standard output and take its value, or `0` when no token
matches; on command failure, throw
`NetworkError('Failed to get wallet balance')`. -/
def getBalance (r : ExecResult) : Except AppErr ℚ :=
  match r with
  | .ok out =>
    match scanBalance out with
    | some q => .ok q
    | none => .ok 0
  | .err m => .error (NetworkError "Failed to get wallet balance".data (.textD m))

/-- Signature extraction of `requestAirdrop`:
`/Signature: ([A-Za-z0-9]+)/` (case sensitive, a single literal space,
greedy non-empty alphanumeric capture). -/
def matchAirdropSigAt (l : List Char) : Option (List Char) :=
  match dropLabelCS "Signature: ".data l with
  | none => none
  | some rest =>
    let run := rest.takeWhile isAlnumChar
    if run.isEmpty then none else some run

/-- Leftmost match for the airdrop signature pattern. -/
def extractAirdropSig (out : List Char) : Option (List Char) :=
  scanMatch matchAirdropSigAt out

/-- Environment of the funding subsystem: the outcome of the `n`-th
`solana balance` invocation and of the `n`-th `solana airdrop`
invocation of a run. -/
structure FundingEnv where
  balanceResults : Nat → ExecResult
  airdropResults : Nat → ExecResult

/-- Counters of CLI invocations issued so far in a run; `airdropCalls`
counts the airdrop requests. -/
structure CliState where
  balanceCalls : Nat
  airdropCalls : Nat
deriving DecidableEq, Repr

/-- Invoke `getBalance` on the next balance-command result. -/
def callGetBalance (env : FundingEnv) (s : CliState) : Except AppErr ℚ × CliState :=
  (getBalance (env.balanceResults s.balanceCalls),
   { s with balanceCalls := s.balanceCalls + 1 })

/-- The body of one `requestAirdrop` attempt (the `try` block): run the
airdrop command; on success extract the signature, wait the fixed settle
delay, re-query the balance and require it to be at least 90% of the
requested amount.  The error value is the thrown error's message. -/
def airdropAttempt (env : FundingEnv) (amount : ℚ) (s : CliState) :
    Except (List Char) (Option (List Char)) × CliState :=
  let cmdRes := env.airdropResults s.airdropCalls
  let s1 := { s with airdropCalls := s.airdropCalls + 1 }
  match cmdRes with
  | .err m => (.error m, s1)
  | .ok out =>
    let sig := extractAirdropSig out
    -- 3000 ms settle delay elapses here, then the balance is re-checked
    let (bRes, s2) := callGetBalance env s1
    match bRes with
    | .error e => (.error e.message, s2)
    | .ok b =>
      if b < amount * (9 / 10) then (.error "Airdrop did not reflect in balance".data, s2)
      else (.ok sig, s2)

/-- `requestAirdrop` with its retry logic: on any failure of the attempt
body, wait the fixed retry delay and recurse with `retries - 1` while
retries remain, otherwise fail with
`NetworkError('Failed to request airdrop after multiple attempts')`.
The caller passes `retries = AIRDROP_MAX_RETRIES` (the default). -/
def requestAirdrop (env : FundingEnv) (amount : ℚ) :
    Nat → CliState → Except AppErr (Option (List Char)) × CliState
  | 0, s =>
    match airdropAttempt env amount s with
    | (.ok sig, s1) => (.ok sig, s1)
    | (.error m, s1) =>
      (.error (NetworkError "Failed to request airdrop after multiple attempts".data (.textD m)), s1)
  | r + 1, s =>
    match airdropAttempt env amount s with
    | (.ok sig, s1) => (.ok sig, s1)
    | (.error _, s1) =>
      -- 5000 ms retry delay elapses here
      requestAirdrop env amount r s1

/-- The `try` block of `ensureFunding`: query the balance; return it if
it meets `MIN_SOL_BALANCE`; otherwise fail with
`InsufficientBalanceError` off devnet, or airdrop `AIRDROP_AMOUNT` with
the default retry budget and re-check the minimum. -/
def ensureFundingInner (env : FundingEnv) (address : List Char) (network : Network) :
    Except AppErr ℚ × CliState :=
  let s0 : CliState := ⟨0, 0⟩
  let (bRes, s1) := callGetBalance env s0
  match bRes with
  | .error e => (.error e, s1)
  | .ok balance =>
    if MIN_SOL_BALANCE ≤ balance then (.ok balance, s1)
    else if network ≠ .devnet then
      (.error (InsufficientBalanceError
        "Insufficient balance for mainnet deployment".data
        (.balanceD address balance MIN_SOL_BALANCE)), s1)
    else
      match requestAirdrop env AIRDROP_AMOUNT AIRDROP_MAX_RETRIES s1 with
      | (.error e, s2) => (.error e, s2)
      | (.ok _, s2) =>
        let (bRes2, s3) := callGetBalance env s2
        match bRes2 with
        | .error e => (.error e, s3)
        | .ok b2 =>
          if b2 < MIN_SOL_BALANCE then
            (.error (InsufficientBalanceError
              "Insufficient balance after airdrop".data
              (.balanceD address b2 MIN_SOL_BALANCE)), s3)
          else (.ok b2, s3)

/-- `ensureFunding`: the `catch` rethrows `InsufficientBalanceError`
unchanged and wraps every other failure into
`NetworkError('Failed to ensure wallet funding')`. -/
def ensureFunding (env : FundingEnv) (address : List Char) (network : Network) :
    Except AppErr ℚ × CliState :=
  match ensureFundingInner env address network with
  | (.error e, s) =>
    (.error (if e.code = .INSUFFICIENT_BALANCE then e
             else NetworkError "Failed to ensure wallet funding".data (.textD e.message)), s)
  | (.ok b, s) => (.ok b, s)

/-- `configureCluster`: any failure of the `config set` command is
wrapped into `NetworkError('Failed to configure Solana cluster')`. -/
def configureCluster (r : ExecResult) : Except AppErr Unit :=
  match r with
  | .ok _ => .ok ()
  | .err m => .error (NetworkError "Failed to configure Solana cluster".data (.textD m))

/-! ## Project manager (`src/services/projectManager.js`) -/

/-- Position matcher for the section head of
`/\[programs\.(localnet|devnet|mainnet)\]([\s\S]*?)(?=\[|$)/`: the
literal `[programs.`, one of the three alternatives (tried in order),
`]`, then the lazy body, which extends up to (excluding) the next `[` or
to the end of the input. -/
def matchProgramsSectionAt (l : List Char) : Option (List Char) :=
  match dropLabelCS "[programs.".data l with
  | none => none
  | some r =>
    match dropLabelCS "localnet]".data r with
    | some body => some (body.takeWhile (fun c => !(c.toNat == 91)))
    | none =>
    match dropLabelCS "devnet]".data r with
    | some body => some (body.takeWhile (fun c => !(c.toNat == 91)))
    | none =>
    match dropLabelCS "mainnet]".data r with
    | some body => some (body.takeWhile (fun c => !(c.toNat == 91)))
    | none => none

/-- Position matcher for one `/(\w+)\s*=\s*"([^"]+)"/` entry, returning
the name/identifier pair and the input remaining after the match. -/
def matchKVAt (l : List Char) : Option ((List Char × List Char) × List Char) :=
  let name := l.takeWhile isWordChar
  if name.isEmpty then none
  else
    match (l.dropWhile isWordChar).dropWhile isSpaceChar with
    | '=' :: r2 =>
      match r2.dropWhile isSpaceChar with
      | '"' :: r4 =>
        let v := r4.takeWhile (fun c => !(c.toNat == 34))
        if v.isEmpty then none
        else
          match r4.drop v.length with
          | '"' :: r5 => some ((name, v), r5)
          | _ => none
      | _ => none
    | _ => none

/-- The global scan of the entry pattern: find the leftmost match,
record it, and continue after its end.  Every match consumes at least
one character, so `fuel = length of the input` suffices exactly. -/
def collectKVsFuel : Nat → List Char → List (List Char × List Char)
  | 0, _ => []
  | _, [] => []
  | fuel + 1, c :: cs =>
    match matchKVAt (c :: cs) with
    | some (kv, rest) => kv :: collectKVsFuel fuel rest
    | none => collectKVsFuel fuel cs

/-- All `name = "id"` entries of a section body, leftmost first. -/
def collectKVs (l : List Char) : List (List Char × List Char) :=
  collectKVsFuel l.length l

/-- `ProjectConfig`: the declared program entries. -/
structure AnchorConfig where
  programs : List (List Char × List Char)
deriving DecidableEq, Repr

/-- `parseAnchorToml` on successfully read content: a missing or
unrecognised `[programs.*]` section yields an empty program list. -/
def parseAnchorToml (content : List Char) : AnchorConfig :=
  match scanMatch matchProgramsSectionAt content with
  | none => ⟨[]⟩
  | some body => ⟨collectKVs body⟩

/-- The workspace facts `validateAnchorProject` consults: existence of
`Anchor.toml`, existence of `programs/`, and the outcome of reading the
manifest (`readFileSync` may fail with an error message). -/
structure ProjectFS where
  anchorTomlExists : Bool
  programsDirExists : Bool
  anchorTomlRead : Except (List Char) (List Char)

/-- `validateAnchorProject`: missing manifest or missing programs
directory throw `InvalidProjectError` directly; a `parseAnchorToml`
failure (a failed manifest read, rethrown as
`Failed to parse Anchor.toml: …`) is wrapped by the `catch` into
`InvalidProjectError('Failed to validate Anchor project')`. -/
def validateAnchorProject (fs : ProjectFS) : Except AppErr AnchorConfig :=
  if !fs.anchorTomlExists then
    .error (InvalidProjectError "Not an Anchor project: Anchor.toml not found".data (.pathD "projectPath".data))
  else if !fs.programsDirExists then
    .error (InvalidProjectError "Not an Anchor project: programs directory not found".data (.pathD "projectPath".data))
  else
    match fs.anchorTomlRead with
    | .error m =>
      .error (InvalidProjectError "Failed to validate Anchor project".data
        (.textD ("Failed to parse Anchor.toml: ".data ++ m)))
    | .ok content => .ok (parseAnchorToml content)

/-- Environment of `cloneRepository`: the `git clone` outcome, whether a
failed clone command leaves the partially created target directory on
disk (a property of the external tool, e.g. after a timeout kill), and
the recursive byte size reported by `getDirectorySize` after a
successful clone. -/
structure CloneEnv where
  cloneResult : ExecResult
  dirLeftOnFailure : Bool
  dirSizeBytes : Nat
deriving DecidableEq

/-- The per-deployment filesystem facts the pipeline touches: the
workspace directory, the deployment-scoped wallet keypair file
(`deployer-<id>.json`), and the shared active-wallet slot (`id.json`). -/
structure WorldFS where
  wsExists : Bool
  walletFileExists : Bool
  defaultKeyExists : Bool
deriving DecidableEq, Repr

/-- `cloneRepository`: remove a pre-existing target, run the clone, then
measure the workspace; a size above `MAX_REPO_SIZE_MB` deletes the
workspace and throws `CloneError` carrying `{ size, maxSize }`
(in megabytes); a failed clone command is wrapped into
`CloneError('Failed to clone repository')` and the function returns
without touching whatever the command left behind. -/
def cloneRepository (env : CloneEnv) (fs : WorldFS) : Except AppErr Unit × WorldFS :=
  let fs0 := { fs with wsExists := false }
  match env.cloneResult with
  | .err m =>
    (.error (CloneError "Failed to clone repository".data (.textD m) []),
     { fs0 with wsExists := env.dirLeftOnFailure })
  | .ok _ =>
    let sizeMB : ℚ := (env.dirSizeBytes : ℚ) / (1024 * 1024)
    if MAX_REPO_SIZE_MB < sizeMB then
      (.error (CloneError "Repository size exceeds maximum allowed".data
        (.sizeD sizeMB MAX_REPO_SIZE_MB) []),
       { fs0 with wsExists := false })
    else
      (.ok (), { fs0 with wsExists := true })

/-- `cleanupDirectory` on the workspace: best-effort removal. -/
def cleanupDirectory (fs : WorldFS) : WorldFS :=
  { fs with wsExists := false }

/-! ## Wallet manager (`src/services/walletManager.js`) -/

/-- `cleanupWallet`: best-effort deletion of the deployment-scoped
keypair file and of the shared `id.json` slot. -/
def cleanupWallet (fs : WorldFS) : WorldFS :=
  { fs with walletFileExists := false, defaultKeyExists := false }

/-- `setupWallet` on the orchestrator's call (no custom wallet option is
passed): generate a keypair, persist it to the deployment-scoped file
(`saveKeypair`, which creates the wallet file), then copy it into the
shared default slot (`setDefaultKeypair`).  Each step's fallibility is
supplied by the environment; a failure is wrapped into the
corresponding `WalletError` and rethrown.  Only on full success is the
keypair path returned to the caller. -/
def setupWallet (genKeypair saveKeypair setDefault : Except (List Char) Unit)
    (walletAddress : List Char) (fs : WorldFS) :
    Except AppErr (List Char) × WorldFS :=
  match genKeypair with
  | .error m => (.error (WalletError "Failed to generate wallet keypair".data (.textD m)), fs)
  | .ok _ =>
  match saveKeypair with
  | .error m => (.error (WalletError "Failed to save wallet keypair".data (.textD m)), fs)
  | .ok _ =>
    let fs1 := { fs with walletFileExists := true }
    match setDefault with
    | .error m =>
      (.error (WalletError "Failed to set default wallet".data (.textD m)),
       { fs1 with defaultKeyExists := false })
    | .ok _ => (.ok walletAddress, { fs1 with defaultKeyExists := true })

/-! ## Anchor build/deploy driver (`src/services/anchorDeployer.js`) -/

/-- `buildProgram`: a successful build returns the captured output; a
failure is wrapped into `BuildError` with the condensed diagnostic and
the raw output lines. -/
def buildProgram (r : ExecResult) : Except AppErr (List Char) :=
  match r with
  | .ok out => .ok out
  | .err m =>
    .error (BuildError "Failed to build Anchor program".data
      (.textD (extractBuildErrors m)) (splitLines m))

/-- Successful deploy result: extracted program id, optional signature,
raw output. -/
structure DeployResult where
  programId : List Char
  signature : Option (List Char)
  stdout : List Char
deriving DecidableEq, Repr

/-- `deployProgram`: on command success extract the program id and the
signature; a missing program id throws
`Could not extract program ID from deployment output`, which the
`catch` wraps — like any other failure — into `DeploymentError` with
the condensed diagnostic and raw lines of the error message. -/
def deployProgram (r : ExecResult) : Except AppErr DeployResult :=
  match r with
  | .err m =>
    .error (DeploymentError "Failed to deploy Anchor program".data
      (.textD (extractDeploymentErrors m)) (splitLines m))
  | .ok out =>
    match extractProgramId out with
    | some pid => .ok ⟨pid, extractSignature out, out⟩
    | none =>
      let m := "Could not extract program ID from deployment output".data
      .error (DeploymentError "Failed to deploy Anchor program".data
        (.textD (extractDeploymentErrors m)) (splitLines m))

/-- `verifyDeployment`: best-effort, reduces to a boolean. -/
def verifyDeployment (r : ExecResult) : Bool :=
  match r with
  | .ok _ => true
  | .err _ => false

/-! ## Pipeline orchestrator (`src/routes/deploy.js`) -/

/-- Environment of one full `orchestrateDeployment` run: outcomes of
each external interaction, in pipeline order. -/
structure OrchEnv where
  cloneEnv : CloneEnv
  projectFS : ProjectFS
  clusterResult : ExecResult
  genKeypair : Except (List Char) Unit
  saveKeypair : Except (List Char) Unit
  setDefault : Except (List Char) Unit
  walletAddress : List Char
  fundingEnv : FundingEnv
  buildResult : ExecResult
  deployResult : ExecResult
  verifyResult : ExecResult

/-- The success payload assembled by the orchestrator (the fields the
claims are about). -/
structure OrchSuccess where
  programId : List Char
  signature : Option (List Char)
  walletAddress : List Char
  verified : Bool
  network : Network
deriving DecidableEq, Repr

/-- The `finally` block of `orchestrateDeployment`: `cleanupDirectory`
runs only when `projectPath` was assigned (the clone step returned), and
`cleanupWallet` runs only when `keypairPath` was assigned (the wallet
setup step returned). -/
def finalizeRun (projectPathSet keypairPathSet : Bool) (fs : WorldFS) : WorldFS :=
  let fs1 := if projectPathSet then cleanupDirectory fs else fs
  if keypairPathSet then cleanupWallet fs1 else fs1

/-- `orchestrateDeployment`: clone → validate → configure cluster →
wallet setup → funding → build → deploy → best-effort verify, with the
`finally` cleanup applied to the final filesystem state on every exit
path.  Returns the result and the filesystem state after the run. -/
def orchestrateDeployment (env : OrchEnv) (network : Network) :
    Except AppErr OrchSuccess × WorldFS :=
  let fs0 : WorldFS := ⟨false, false, false⟩
  match cloneRepository env.cloneEnv fs0 with
  | (.error e, fs1) => (.error e, finalizeRun false false fs1)
  | (.ok _, fs1) =>
  match validateAnchorProject env.projectFS with
  | .error e => (.error e, finalizeRun true false fs1)
  | .ok _ =>
  match configureCluster env.clusterResult with
  | .error e => (.error e, finalizeRun true false fs1)
  | .ok _ =>
  match setupWallet env.genKeypair env.saveKeypair env.setDefault env.walletAddress fs1 with
  | (.error e, fs2) => (.error e, finalizeRun true false fs2)
  | (.ok addr, fs2) =>
  match ensureFunding env.fundingEnv addr network with
  | (.error e, _) => (.error e, finalizeRun true true fs2)
  | (.ok _, _) =>
  match buildProgram env.buildResult with
  | .error e => (.error e, finalizeRun true true fs2)
  | .ok _ =>
  match deployProgram env.deployResult with
  | .error e => (.error e, finalizeRun true true fs2)
  | .ok d =>
    (.ok ⟨d.programId, d.signature, addr, verifyDeployment env.verifyResult, network⟩,
     finalizeRun true true fs2)

/-! ## Specification-side characterization of the fallback token scan

The spec speaks of "base58-alphabet tokens of length 32–44" and "the
first such occurrence".  A token in this sense is a maximal run of word
characters; the following definitions state that reading independently
of the scanner, so that the scanner can be proven equal to it. -/

/-- The maximal word-character runs of a text, in order. -/
def wordRuns : List Char → List (List Char)
  | [] => []
  | c :: cs =>
    if isWordChar c then
      (c :: cs.takeWhile isWordChar) :: wordRuns (cs.dropWhile isWordChar)
    else wordRuns cs
termination_by l => l.length
decreasing_by
  · exact Nat.lt_succ_of_le ((List.dropWhile_sublist _).length_le)
  · exact Nat.lt_succ_self _

/-- A token in the spec's sense: entirely base58, length within bounds. -/
def validRun (lo hi : Nat) (r : List Char) : Bool :=
  r.all isBase58Char && decide (lo ≤ r.length) && decide (r.length ≤ hi)

/-- The first base58 token of valid length, in the spec's reading. -/
def firstValidRun (lo hi : Nat) (l : List Char) : Option (List Char) :=
  (wordRuns l).find? (validRun lo hi)

/-! ## Concrete run environments used as test inputs -/

/-- A funding environment whose airdrop command always fails (the
balance stays zero). -/
def allFailFundingEnv : FundingEnv :=
  ⟨fun _ => .ok "0 SOL".data, fun _ => .err "airdrop command failed".data⟩

/-- A funding environment with an already-funded wallet. -/
def happyFundingEnv : FundingEnv :=
  ⟨fun _ => .ok "2.5 SOL".data, fun _ => .ok "Signature: abc".data⟩

/-- Deploy output with one labelled 32-character program id. -/
def deployOut32 : List Char :=
  "Program Id: ".data ++ List.replicate 32 '2'

/-- A run in which every step up to wallet setup succeeds, the keypair
file is saved, and then `setDefaultKeypair` (the `copyFileSync` into the
shared slot) fails. -/
def walletLeakEnv : OrchEnv where
  cloneEnv := ⟨.ok [], false, 0⟩
  projectFS := ⟨true, true, .ok "[programs.devnet]\ncounter = \"Prog\"".data⟩
  clusterResult := .ok []
  genKeypair := .ok ()
  saveKeypair := .ok ()
  setDefault := .error "copyFileSync failed".data
  walletAddress := "WalletAddr".data
  fundingEnv := allFailFundingEnv
  buildResult := .ok []
  deployResult := .ok []
  verifyResult := .ok []

/-- A fully successful run. -/
def happyEnv : OrchEnv :=
  { walletLeakEnv with
    setDefault := .ok ()
    fundingEnv := happyFundingEnv
    deployResult := .ok deployOut32 }

/-! ## Helper lemmas: character classes -/

theorem isBase58_isWord {c : Char} (h : isBase58Char c = true) : isWordChar c = true := by
  simp [isBase58Char, between, isWordChar, isAlnumChar] at *
  omega

theorem isWord_false_isBase58_false {c : Char} (h : isWordChar c = false) :
    isBase58Char c = false := by
  cases hb : isBase58Char c with
  | false => rfl
  | true => rw [isBase58_isWord hb] at h; exact absurd h (by simp)

theorem alnum_not_space {c : Char} (h : isAlnumChar c = true) : isSpaceChar c = false := by
  simp [isAlnumChar, between, isSpaceChar] at *
  omega

theorem alnum_not_digit_of_not {c : Char} (h : isAlnumChar c = false) : isDigitChar c = false := by
  simp [isAlnumChar, between, isDigitChar] at *
  omega

theorem ciEq_P_of_not_alnum {c : Char} (h : isAlnumChar c = false) : ciEq 'P' c = false := by
  have hP : lowerNat 'P' = 112 := by decide
  simp [ciEq, hP]
  simp [isAlnumChar, between] at h
  simp [lowerNat]
  split
  · omega
  · omega

/-! ## Helper lemmas: lists -/

theorem takeWhile_append_of_all {p : Char → Bool} :
    ∀ {l₁ l₂ : List Char}, l₁.all p = true →
      (l₁ ++ l₂).takeWhile p = l₁ ++ l₂.takeWhile p := by
  intro l₁ l₂ h
  induction l₁ with
  | nil => simp
  | cons c cs ih =>
    simp only [List.all_cons, Bool.and_eq_true] at h
    simp [List.takeWhile_cons, h.1, ih h.2]

theorem dropWhile_append_of_all {p : Char → Bool} :
    ∀ {l₁ l₂ : List Char}, l₁.all p = true →
      (l₁ ++ l₂).dropWhile p = l₂.dropWhile p := by
  intro l₁ l₂ h
  induction l₁ with
  | nil => simp
  | cons c cs ih =>
    simp only [List.all_cons, Bool.and_eq_true] at h
    simp [List.dropWhile_cons, h.1, ih h.2]

theorem takeWhile_head_false {p : Char → Bool} {l : List Char}
    (h : ∀ c, l.head? = some c → p c = false) : l.takeWhile p = [] := by
  cases l with
  | nil => rfl
  | cons c cs => simp [List.takeWhile_cons, h c rfl]

theorem dropWhile_head_false {p : Char → Bool} {l : List Char}
    (h : ∀ c, l.head? = some c → p c = false) : l.dropWhile p = l := by
  cases l with
  | nil => rfl
  | cons c cs => simp [List.dropWhile_cons, h c rfl]

theorem dropWhile_head_not {p : Char → Bool} :
    ∀ {l : List Char} {c : Char} {t : List Char}, l.dropWhile p = c :: t → p c = false := by
  intro l
  induction l with
  | nil => intro c t h; cases h
  | cons a as ih =>
    intro c t h
    by_cases ha : p a
    · rw [List.dropWhile_cons_of_pos ha] at h; exact ih h
    · rw [List.dropWhile_cons_of_neg ha] at h
      cases h
      exact Bool.eq_false_iff.mpr ha

theorem mem_takeWhile_pred {p : Char → Bool} :
    ∀ {l : List Char} {c : Char}, c ∈ l.takeWhile p → p c = true := by
  intro l
  induction l with
  | nil => intro c h; cases h
  | cons a as ih =>
    intro c h
    by_cases ha : p a
    · rw [List.takeWhile_cons_of_pos ha] at h
      rcases List.mem_cons.mp h with rfl | h
      · exact ha
      · exact ih h
    · rw [List.takeWhile_cons_of_neg ha] at h; cases h

theorem isPrefixOf_append_self (l r : List Char) : l.isPrefixOf (l ++ r) = true := by
  induction l with
  | nil => simp [List.isPrefixOf]
  | cons c cs ih => simp [List.isPrefixOf, ih]

/-! ## Helper lemmas: label consumption and leftmost scanning -/

theorem dropLabelCI_self_append : ∀ (l r : List Char), dropLabelCI l (l ++ r) = some r := by
  intro l
  induction l with
  | nil => intro r; rfl
  | cons c cs ih =>
    intro r
    have : ciEq c c = true := by simp [ciEq]
    simp [dropLabelCI, this, ih]

theorem scanMatch_cons_some {f : List Char → Option (List Char)} {c : Char} {cs : List Char}
    {t : List Char} (h : f (c :: cs) = some t) : scanMatch f (c :: cs) = some t := by
  simp [scanMatch, h]

theorem scanMatch_head_some {f : List Char → Option (List Char)} {l t : List Char}
    (hne : l ≠ []) (h : f l = some t) : scanMatch f l = some t := by
  cases l with
  | nil => exact absurd rfl hne
  | cons c cs => simp [scanMatch, h]

theorem scanMatch_append_none {f : List Char → Option (List Char)} :
    ∀ {pre l : List Char}, (∀ c ∈ pre, ∀ r, f (c :: r) = none) →
      scanMatch f (pre ++ l) = scanMatch f l := by
  intro pre l h
  induction pre with
  | nil => simp
  | cons c cs ih =>
    have hc := h c (List.mem_cons_self c cs) (cs ++ l)
    simp only [List.cons_append, scanMatch, List.append_eq]
    rw [hc]
    exact ih (fun d hd r => h d (List.mem_cons_of_mem c hd) r)

/-! ## Claims C5 and C6: `ensureFunding` -/

/-- **C5.** Funding is idempotent: for every wallet whose queried balance
already meets `MIN_SOL_BALANCE`, `ensureFunding` returns that balance
immediately with no airdrop request issued (`airdropCalls = 0`),
regardless of the target network. -/
theorem ensureFunding_idempotent (env : FundingEnv) (address : List Char) (network : Network)
    (b : ℚ) (h : getBalance (env.balanceResults 0) = .ok b) (hb : MIN_SOL_BALANCE ≤ b) :
    ensureFunding env address network = (.ok b, ⟨1, 0⟩) ∧
    (ensureFunding env address network).2.airdropCalls = 0 := by
  have hinner : ensureFundingInner env address network = (.ok b, ⟨1, 0⟩) := by
    simp [ensureFundingInner, callGetBalance, h, hb]
  constructor
  · simp [ensureFunding, hinner]
  · simp [ensureFunding, hinner]

/-- Witness for C5 at a concrete environment: balance `2.5 SOL`, already
above the minimum, on `mainnet-beta`. -/
theorem ensureFunding_idempotent_witness :
    getBalance (happyFundingEnv.balanceResults 0) = .ok (decValue ['2'] ['5']) ∧
    MIN_SOL_BALANCE ≤ decValue ['2'] ['5'] ∧
    ensureFunding happyFundingEnv "a".data Network.mainnetBeta =
      (.ok (decValue ['2'] ['5']), ⟨1, 0⟩) := by
  have hg : getBalance (happyFundingEnv.balanceResults 0) = .ok (decValue ['2'] ['5']) := rfl
  have hb : MIN_SOL_BALANCE ≤ decValue ['2'] ['5'] := by
    have e1 : digitsVal ['2'] = 2 := by decide
    have e2 : digitsVal ['5'] = 5 := by decide
    simp [decValue, e1, e2, MIN_SOL_BALANCE]
    norm_num
  exact ⟨hg, hb,
    (ensureFunding_idempotent happyFundingEnv "a".data Network.mainnetBeta _ hg hb).1⟩

/-- **C6.** For a balance below the minimum on a non-devnet network,
`ensureFunding` fails with `InsufficientBalanceError` whose details
carry the current balance and the required amount, and no airdrop is
attempted (`airdropCalls = 0`). -/
theorem ensureFunding_offnet_insufficient (env : FundingEnv) (address : List Char)
    (network : Network) (b : ℚ) (h : getBalance (env.balanceResults 0) = .ok b)
    (hb : b < MIN_SOL_BALANCE) (hn : network ≠ .devnet) :
    ensureFunding env address network =
      (.error (InsufficientBalanceError "Insufficient balance for mainnet deployment".data
        (.balanceD address b MIN_SOL_BALANCE)), ⟨1, 0⟩) ∧
    (ensureFunding env address network).2.airdropCalls = 0 := by
  have hinner : ensureFundingInner env address network =
      (.error (InsufficientBalanceError "Insufficient balance for mainnet deployment".data
        (.balanceD address b MIN_SOL_BALANCE)), ⟨1, 0⟩) := by
    simp [ensureFundingInner, callGetBalance, h, not_le.mpr hb, hn]
  constructor
  · simp [ensureFunding, hinner, InsufficientBalanceError]
  · simp [ensureFunding, hinner]

/-- Witness for C6 at a concrete environment: zero balance on
`mainnet-beta`, airdrop never invoked. -/
theorem ensureFunding_offnet_insufficient_witness :
    getBalance (allFailFundingEnv.balanceResults 0) = .ok 0 ∧
    (0 : ℚ) < MIN_SOL_BALANCE ∧ Network.mainnetBeta ≠ Network.devnet ∧
    ensureFunding allFailFundingEnv "a".data Network.mainnetBeta =
      (.error (InsufficientBalanceError "Insufficient balance for mainnet deployment".data
        (.balanceD "a".data 0 MIN_SOL_BALANCE)), ⟨1, 0⟩) := by
  have hg0 : getBalance (allFailFundingEnv.balanceResults 0) =
      .ok ((digitsVal ['0'] : ℚ)) := rfl
  have hg : getBalance (allFailFundingEnv.balanceResults 0) = .ok 0 := by
    rw [hg0, show digitsVal ['0'] = 0 from by decide]
    norm_num
  have hb : (0 : ℚ) < MIN_SOL_BALANCE := by norm_num [MIN_SOL_BALANCE]
  exact ⟨hg, hb, by decide,
    (ensureFunding_offnet_insufficient allFailFundingEnv "a".data Network.mainnetBeta 0
      hg hb (by decide)).1⟩

/-! ## Claim C2: `requestAirdrop` retry behaviour -/

/-- **C2 (counterexample).** With every airdrop command failing and the
default retry budget, `requestAirdrop` issues `AIRDROP_MAX_RETRIES + 1 = 4`
airdrop commands — more than the `AIRDROP_MAX_RETRIES = 3` total attempts
the claim allows — and performs no balance re-verification at all
(`balanceCalls = 0`), contradicting "every attempt waits the settle delay
and then re-verifies the balance". -/
theorem requestAirdrop_four_attempts :
    (requestAirdrop allFailFundingEnv AIRDROP_AMOUNT AIRDROP_MAX_RETRIES ⟨0, 0⟩).2 =
      ⟨0, AIRDROP_MAX_RETRIES + 1⟩ ∧
    ¬ ((requestAirdrop allFailFundingEnv AIRDROP_AMOUNT AIRDROP_MAX_RETRIES ⟨0, 0⟩).2.airdropCalls
        ≤ AIRDROP_MAX_RETRIES) := by
  decide

/-- **C2 (amended).** `requestAirdrop` makes one initial attempt plus up
to `retries` retries (the caller passes `retries = AIRDROP_MAX_RETRIES`,
so `AIRDROP_MAX_RETRIES + 1` attempts in total) before failing with a
network-kind error; an attempt whose airdrop command succeeds re-checks
the balance after the settle delay against the 90% threshold (succeeding
iff the threshold is met), while an attempt whose command errors retries
without a balance re-check. -/
theorem requestAirdrop_retry_characterization :
    (∀ (env : FundingEnv) (amount : ℚ) (retries : Nat) (s : CliState),
      (∀ k, ∃ m, env.airdropResults k = .err m) →
      ∃ m, requestAirdrop env amount retries s =
        (.error (NetworkError "Failed to request airdrop after multiple attempts".data
          (.textD m)),
         ⟨s.balanceCalls, s.airdropCalls + retries + 1⟩)) ∧
    (∀ (env : FundingEnv) (amount : ℚ) (retries : Nat) (s : CliState) (out : List Char) (b : ℚ),
      env.airdropResults s.airdropCalls = .ok out →
      getBalance (env.balanceResults s.balanceCalls) = .ok b →
      ¬ b < amount * (9 / 10) →
      requestAirdrop env amount retries s =
        (.ok (extractAirdropSig out), ⟨s.balanceCalls + 1, s.airdropCalls + 1⟩)) ∧
    (∀ (env : FundingEnv) (amount : ℚ) (s : CliState) (out : List Char) (b : ℚ),
      env.airdropResults s.airdropCalls = .ok out →
      getBalance (env.balanceResults s.balanceCalls) = .ok b →
      b < amount * (9 / 10) →
      requestAirdrop env amount 0 s =
        (.error (NetworkError "Failed to request airdrop after multiple attempts".data
          (.textD "Airdrop did not reflect in balance".data)),
         ⟨s.balanceCalls + 1, s.airdropCalls + 1⟩)) := by
  have attempt_err : ∀ (env : FundingEnv) (amount : ℚ) (s : CliState) (m : List Char),
      env.airdropResults s.airdropCalls = .err m →
      airdropAttempt env amount s = (.error m, ⟨s.balanceCalls, s.airdropCalls + 1⟩) := by
    intro env amount s m hm
    simp [airdropAttempt, hm]
  have attempt_ok : ∀ (env : FundingEnv) (amount : ℚ) (s : CliState) (out : List Char) (b : ℚ),
      env.airdropResults s.airdropCalls = .ok out →
      getBalance (env.balanceResults s.balanceCalls) = .ok b →
      ¬ b < amount * (9 / 10) →
      airdropAttempt env amount s =
        (.ok (extractAirdropSig out), ⟨s.balanceCalls + 1, s.airdropCalls + 1⟩) := by
    intro env amount s out b hcmd hbal hge
    simp [airdropAttempt, hcmd, callGetBalance, hbal, hge]
  have attempt_low : ∀ (env : FundingEnv) (amount : ℚ) (s : CliState) (out : List Char) (b : ℚ),
      env.airdropResults s.airdropCalls = .ok out →
      getBalance (env.balanceResults s.balanceCalls) = .ok b →
      b < amount * (9 / 10) →
      airdropAttempt env amount s =
        (.error "Airdrop did not reflect in balance".data,
         ⟨s.balanceCalls + 1, s.airdropCalls + 1⟩) := by
    intro env amount s out b hcmd hbal hlt
    simp [airdropAttempt, hcmd, callGetBalance, hbal, hlt]
  refine ⟨?_, ?_, ?_⟩
  · intro env amount retries s hfail
    induction retries generalizing s with
    | zero =>
      obtain ⟨m, hm⟩ := hfail s.airdropCalls
      exact ⟨m, by simp [requestAirdrop, attempt_err env amount s m hm]⟩
    | succ r ih =>
      obtain ⟨m, hm⟩ := hfail s.airdropCalls
      obtain ⟨m', hm'⟩ := ih ⟨s.balanceCalls, s.airdropCalls + 1⟩
      refine ⟨m', ?_⟩
      simp only [requestAirdrop, attempt_err env amount s m hm]
      rw [hm']
      have he : s.airdropCalls + 1 + r + 1 = s.airdropCalls + (r + 1) + 1 := by omega
      simp [he]
  · intro env amount retries s out b hcmd hbal hge
    cases retries with
    | zero => simp [requestAirdrop, attempt_ok env amount s out b hcmd hbal hge]
    | succ r => simp [requestAirdrop, attempt_ok env amount s out b hcmd hbal hge]
  · intro env amount s out b hcmd hbal hlt
    simp [requestAirdrop, attempt_low env amount s out b hcmd hbal hlt]

/-- Witness for the amended C2 at a concrete environment: all airdrop
commands fail, the default budget is used, and exactly four attempts and
zero balance checks happen. -/
theorem requestAirdrop_retry_characterization_witness :
    (∀ k, ∃ m, allFailFundingEnv.airdropResults k = .err m) ∧
    ∃ m, requestAirdrop allFailFundingEnv AIRDROP_AMOUNT AIRDROP_MAX_RETRIES ⟨0, 0⟩ =
      (.error (NetworkError "Failed to request airdrop after multiple attempts".data
        (.textD m)), ⟨0, 0 + AIRDROP_MAX_RETRIES + 1⟩) :=
  ⟨fun _ => ⟨"airdrop command failed".data, rfl⟩,
   requestAirdrop_retry_characterization.1 allFailFundingEnv AIRDROP_AMOUNT
     AIRDROP_MAX_RETRIES ⟨0, 0⟩ (fun _ => ⟨"airdrop command failed".data, rfl⟩)⟩

/-! ## Claim C7: `validateAnchorProject` error classification -/

/-- **C7.** A workspace missing `Anchor.toml` or missing the `programs`
directory fails validation with the invalid-project kind
(`NOT_ANCHOR_PROJECT`); moreover every failure of
`validateAnchorProject` — including a failed manifest read wrapped by
the catch — carries that kind, never a generic one. -/
theorem validateAnchorProject_invalid_kind :
    (∀ fs : ProjectFS, fs.anchorTomlExists = false ∨ fs.programsDirExists = false →
      ∃ e, validateAnchorProject fs = .error e ∧ e.code = .NOT_ANCHOR_PROJECT) ∧
    (∀ (fs : ProjectFS) (e : AppErr), validateAnchorProject fs = .error e →
      e.code = .NOT_ANCHOR_PROJECT) := by
  constructor
  · rintro ⟨t, p, r⟩ h
    rcases h with h | h
    · subst h
      exact ⟨_, rfl, rfl⟩
    · subst h
      cases t
      · exact ⟨_, rfl, rfl⟩
      · exact ⟨_, rfl, rfl⟩
  · rintro ⟨t, p, r⟩ e h
    cases t
    · rw [show validateAnchorProject ⟨false, p, r⟩ =
        .error (InvalidProjectError "Not an Anchor project: Anchor.toml not found".data
          (.pathD "projectPath".data)) from rfl] at h
      cases h
      rfl
    · cases p
      · rw [show validateAnchorProject ⟨true, false, r⟩ =
          .error (InvalidProjectError "Not an Anchor project: programs directory not found".data
            (.pathD "projectPath".data)) from rfl] at h
        cases h
        rfl
      · cases r with
        | error m =>
          rw [show validateAnchorProject ⟨true, true, .error m⟩ =
            .error (InvalidProjectError "Failed to validate Anchor project".data
              (.textD ("Failed to parse Anchor.toml: ".data ++ m))) from rfl] at h
          cases h
          rfl
        | ok content =>
          rw [show validateAnchorProject ⟨true, true, .ok content⟩ =
            .ok (parseAnchorToml content) from rfl] at h
          cases h

/-- Witness for C7: a workspace without `Anchor.toml`. -/
theorem validateAnchorProject_invalid_kind_witness :
    (⟨false, true, .ok []⟩ : ProjectFS).anchorTomlExists = false ∧
    ∃ e, validateAnchorProject ⟨false, true, .ok []⟩ = .error e ∧
      e.code = .NOT_ANCHOR_PROJECT :=
  ⟨rfl, validateAnchorProject_invalid_kind.1 ⟨false, true, .ok []⟩ (Or.inl rfl)⟩

/-! ## Claim C8: `cloneRepository` size ceiling -/

/-- **C8.** After a successful clone whose measured size (in megabytes)
exceeds `MAX_REPO_SIZE_MB`, the workspace is deleted and a `CloneError`
is raised whose details carry the measured size and the ceiling. -/
theorem cloneRepository_size_ceiling (env : CloneEnv) (fs : WorldFS) (out : List Char)
    (hok : env.cloneResult = .ok out)
    (hsz : MAX_REPO_SIZE_MB < (env.dirSizeBytes : ℚ) / (1024 * 1024)) :
    cloneRepository env fs =
      (.error (CloneError "Repository size exceeds maximum allowed".data
        (.sizeD ((env.dirSizeBytes : ℚ) / (1024 * 1024)) MAX_REPO_SIZE_MB) []),
       ⟨false, fs.walletFileExists, fs.defaultKeyExists⟩) := by
  simp [cloneRepository, hok, hsz]

/-- Witness for C8: a 600 MiB repository against the 500 MB default
ceiling. -/
theorem cloneRepository_size_ceiling_witness :
    (⟨.ok [], false, 600 * 1024 * 1024⟩ : CloneEnv).cloneResult = .ok [] ∧
    MAX_REPO_SIZE_MB < (((600 * 1024 * 1024 : Nat) : ℚ)) / (1024 * 1024) ∧
    cloneRepository ⟨.ok [], false, 600 * 1024 * 1024⟩ ⟨false, false, false⟩ =
      (.error (CloneError "Repository size exceeds maximum allowed".data
        (.sizeD ((((600 * 1024 * 1024 : Nat) : ℚ)) / (1024 * 1024)) MAX_REPO_SIZE_MB) []),
       ⟨false, false, false⟩) := by
  have hsz : MAX_REPO_SIZE_MB < (((600 * 1024 * 1024 : Nat) : ℚ)) / (1024 * 1024) := by
    norm_num [MAX_REPO_SIZE_MB]
  exact ⟨rfl, hsz,
    cloneRepository_size_ceiling ⟨.ok [], false, 600 * 1024 * 1024⟩ ⟨false, false, false⟩ [] rfl hsz⟩

/-! ## Claim C4: deploy fails when no program id can be extracted -/

/-- **C4.** Whenever no program identifier can be extracted from the
deploy output by either strategy, `deployProgram` raises a
`DeploymentError` (kind `DEPLOY_FAILED`) — here the process exited with
code zero (`ExecResult.ok`). -/
theorem deployProgram_missing_id_fails (out : List Char)
    (h : extractProgramId out = none) :
    ∃ e, deployProgram (.ok out) = .error e ∧ e.code = .DEPLOY_FAILED := by
  simp only [deployProgram, h]
  exact ⟨_, rfl, rfl⟩

/-- Witness for C4: output with no labelled id and no base58 token of
valid length, exit code zero. -/
theorem deployProgram_missing_id_fails_witness :
    extractProgramId "deployment finished".data = none ∧
    ∃ e, deployProgram (.ok "deployment finished".data) = .error e ∧
      e.code = .DEPLOY_FAILED :=
  ⟨by decide, deployProgram_missing_id_fails "deployment finished".data (by decide)⟩

/-! ## Claim C10: the signature is optional in a successful deploy -/

/-- **C10.** When a program id is extracted but neither signature
strategy matches, `deployProgram` still succeeds and the signature field
is null. -/
theorem deployProgram_signature_optional (out pid : List Char)
    (hpid : extractProgramId out = some pid) (hsig : extractSignature out = none) :
    deployProgram (.ok out) = .ok ⟨pid, none, out⟩ := by
  simp [deployProgram, hpid, hsig]

/-- Witness for C10: a labelled program id with no signature anywhere in
the output. -/
theorem deployProgram_signature_optional_witness :
    extractProgramId deployOut32 = some (List.replicate 32 '2') ∧
    extractSignature deployOut32 = none ∧
    deployProgram (.ok deployOut32) = .ok ⟨List.replicate 32 '2', none, deployOut32⟩ :=
  ⟨by decide, by decide,
   deployProgram_signature_optional deployOut32 (List.replicate 32 '2') (by decide) (by decide)⟩

/-! ## Claim C9: `getBalance` output parsing -/

theorem matchBalanceAt_head_not_digit {c : Char} {r : List Char}
    (hc : isDigitChar c = false) : matchBalanceAt (c :: r) = none := by
  simp [matchBalanceAt, List.takeWhile_cons, hc]

theorem scanBalance_append_none :
    ∀ {pre l : List Char}, (∀ c ∈ pre, isDigitChar c = false) →
      scanBalance (pre ++ l) = scanBalance l := by
  intro pre l h
  induction pre with
  | nil => simp
  | cons c cs ih =>
    have hc := matchBalanceAt_head_not_digit (r := cs ++ l) (h c (List.mem_cons_self c cs))
    simp only [List.cons_append, scanBalance, List.append_eq]
    rw [hc]
    exact ih (fun d hd => h d (List.mem_cons_of_mem c hd))

theorem scanBalance_none_of_no_match :
    ∀ {out : List Char}, (∀ i < out.length, matchBalanceAt (out.drop i) = none) →
      scanBalance out = none := by
  intro out
  induction out with
  | nil => intro _; rfl
  | cons c cs ih =>
    intro h
    have h0 : matchBalanceAt (c :: cs) = none := by simpa using h 0 (by simp)
    simp only [scanBalance]
    rw [h0]
    exact ih (fun i hi => by simpa using h (i + 1) (by simpa using Nat.succ_lt_succ hi))

/-- **C9.** When the balance command succeeds but its output contains no
token matching `\d+\.?\d*\s+SOL`, `getBalance` returns `0` rather than
raising an error; otherwise it returns the value parsed from the first
such match (shown for an output whose prefix contains no digit, followed
by a decimal number and ` SOL`). -/
theorem getBalance_parse_characterization :
    (∀ out : List Char, (∀ i < out.length, matchBalanceAt (out.drop i) = none) →
      getBalance (.ok out) = .ok 0) ∧
    (∀ pre d1 d2 rest : List Char,
      (∀ c ∈ pre, isDigitChar c = false) →
      d1 ≠ [] → d1.all isDigitChar = true → d2.all isDigitChar = true →
      getBalance (.ok (pre ++ d1 ++ '.' :: d2 ++ (' ' :: "SOL".data) ++ rest)) =
        .ok (decValue d1 d2)) := by
  constructor
  · intro out h
    simp [getBalance, scanBalance_none_of_no_match h]
  · intro pre d1 d2 rest hpre hne hd1 hd2
    have hmatch : matchBalanceAt (d1 ++ '.' :: d2 ++ (' ' :: "SOL".data) ++ rest) =
        some (decValue d1 d2) := by
      have htake : (d1 ++ '.' :: d2 ++ (' ' :: "SOL".data) ++ rest).takeWhile isDigitChar = d1 := by
        rw [List.append_assoc, List.append_assoc, takeWhile_append_of_all hd1]
        simp [List.takeWhile_cons, show isDigitChar '.' = false from by decide]
      have hdrop : (d1 ++ '.' :: d2 ++ (' ' :: "SOL".data) ++ rest).dropWhile isDigitChar =
          '.' :: (d2 ++ (' ' :: "SOL".data) ++ rest) := by
        rw [List.append_assoc, List.append_assoc, dropWhile_append_of_all hd1]
        simp [List.dropWhile_cons, show isDigitChar '.' = false from by decide]
      have hd1e : d1.isEmpty = false := by cases d1 with
        | nil => exact absurd rfl hne
        | cons a as => rfl
      have htake2 : (d2 ++ (' ' :: "SOL".data) ++ rest).takeWhile isDigitChar = d2 := by
        rw [List.append_assoc, takeWhile_append_of_all hd2]
        simp [List.takeWhile_cons, show isDigitChar ' ' = false from by decide]
      have hdrop2 : (d2 ++ (' ' :: "SOL".data) ++ rest).dropWhile isDigitChar =
          ' ' :: ("SOL".data ++ rest) := by
        rw [List.append_assoc, dropWhile_append_of_all hd2]
        simp [List.dropWhile_cons, show isDigitChar ' ' = false from by decide]
      have hsol : spacesThenSOL (' ' :: ("SOL".data ++ rest)) = true := by
        have h1 : ((' ' :: ("SOL".data ++ rest)).takeWhile isSpaceChar) = [' '] := by
          rw [show (' ' :: ("SOL".data ++ rest)) = ' ' :: 'S' :: ("OL".data ++ rest) from rfl]
          rw [List.takeWhile_cons_of_pos (by decide), List.takeWhile_cons_of_neg (by decide)]
        have h2 : ((' ' :: ("SOL".data ++ rest)).dropWhile isSpaceChar) = "SOL".data ++ rest := by
          rw [List.dropWhile_cons_of_pos (by decide)]
          refine dropWhile_head_false ?_
          intro c hc
          rw [show ("SOL".data ++ rest).head? = some 'S' from rfl] at hc
          cases hc
          decide
        rw [spacesThenSOL, h1, h2]
        simp [isPrefixOf_append_self]
      rw [matchBalanceAt]
      simp only [htake, hdrop, hd1e, Bool.false_eq_true, if_false]
      simp only [hdrop2, hsol, htake2, if_true]
    have hscan : scanBalance (pre ++ (d1 ++ '.' :: d2 ++ (' ' :: "SOL".data) ++ rest)) =
        some (decValue d1 d2) := by
      rw [scanBalance_append_none hpre]
      cases hd : d1 with
      | nil => exact absurd hd hne
      | cons a as =>
        rw [hd] at hmatch
        simp only [List.cons_append, scanBalance, List.append_eq] at hmatch ⊢
        rw [hmatch]
    have has : pre ++ d1 ++ '.' :: d2 ++ (' ' :: "SOL".data) ++ rest =
        pre ++ (d1 ++ '.' :: d2 ++ (' ' :: "SOL".data) ++ rest) := by
      simp [List.append_assoc]
    rw [getBalance, has]
    rw [hscan]

/-- Witness for C9: both branches at concrete outputs — `no balance
data` yields `0`, and `Balance: 2.5 SOL` yields the parsed value. -/
theorem getBalance_parse_characterization_witness :
    (∀ i < ("no balance data".data).length,
      matchBalanceAt (("no balance data".data).drop i) = none) ∧
    getBalance (.ok "no balance data".data) = .ok 0 ∧
    getBalance (.ok ("Balance: ".data ++ ['2'] ++ '.' :: ['5'] ++ (' ' :: "SOL".data) ++ [])) =
      .ok (decValue ['2'] ['5']) := by
  refine ⟨by decide, ?_, ?_⟩
  · exact getBalance_parse_characterization.1 "no balance data".data (by decide)
  · exact getBalance_parse_characterization.2 "Balance: ".data ['2'] ['5'] []
      (by decide) (by simp) (by decide) (by decide)

/-! ## The fallback scan equals the first-valid-token characterization -/

theorem tryRunDown_nil (lo : Nat) : ∀ k, tryRunDown lo [] k = none := by
  intro k
  induction k with
  | zero => rfl
  | succ n ih =>
    rw [tryRunDown]
    simp [ih]

theorem tryRunDown_none_of_head {lo : Nat} {c : Char} {cs : List Char}
    (hc : isBase58Char c = false) : ∀ k, tryRunDown lo (c :: cs) k = none := by
  intro k
  induction k with
  | zero => rfl
  | succ n ih =>
    have hcand : ((c :: cs).take (n + 1)).all isBase58Char = false := by
      rw [List.take_succ_cons, List.all_cons, hc, Bool.false_and]
    rw [tryRunDown]
    simp only [hcand, Bool.and_false, Bool.false_and, Bool.false_eq_true, if_false]
    exact ih

theorem tryRunDown_some_of_run {lo : Nat} {run rest : List Char}
    (hall : run.all isBase58Char = true) (hb : boundaryAfter rest = true)
    (hlo : lo ≤ run.length) (hlen : 1 ≤ run.length) :
    ∀ {hi}, run.length ≤ hi → tryRunDown lo (run ++ rest) hi = some run := by
  intro hi
  induction hi with
  | zero => intro h; exfalso; omega
  | succ n ih =>
    intro h
    by_cases he : run.length = n + 1
    · have hcand : (run ++ rest).take (n + 1) = run := by
        rw [← he]
        exact List.take_left run rest
      have hdrop : (run ++ rest).drop (n + 1) = rest := by
        rw [← he]
        exact List.drop_left run rest
      have hcondT : (decide (lo ≤ n + 1) && (((run ++ rest).take (n + 1)).length == n + 1) &&
          ((run ++ rest).take (n + 1)).all isBase58Char &&
          boundaryAfter ((run ++ rest).drop (n + 1))) = true := by
        rw [hcand, hdrop, hall, hb, decide_eq_true (show lo ≤ n + 1 from by omega)]
        simp [he]
      rw [tryRunDown]
      rw [hcondT, if_pos rfl, hcand]
    · have hle : run.length ≤ n := by omega
      cases rest with
      | nil =>
        have hne : (((run ++ ([] : List Char)).take (n + 1)).length == n + 1) = false := by
          rw [List.append_nil, List.take_of_length_le (by omega)]
          simp only [beq_eq_false_iff_ne, ne_eq]
          omega
        rw [tryRunDown]
        rw [hne]
        simp only [Bool.and_false, Bool.false_and, Bool.false_eq_true, if_false]
        exact ih hle
      | cons r rs =>
        have hr : isBase58Char r = false := by
          apply isWord_false_isBase58_false
          simpa [boundaryAfter] using hb
        have hsplit : (run ++ r :: rs).take (n + 1) = run ++ r :: rs.take (n - run.length) := by
          rw [List.take_append_eq_append_take, List.take_of_length_le (by omega),
            show n + 1 - run.length = (n - run.length) + 1 from by omega, List.take_succ_cons]
        have hcand : ((run ++ r :: rs).take (n + 1)).all isBase58Char = false := by
          rw [hsplit, List.all_append, List.all_cons, hr, Bool.false_and, Bool.and_false]
        rw [tryRunDown]
        rw [hcand]
        simp only [Bool.and_false, Bool.false_and, Bool.false_eq_true, if_false]
        exact ih hle

theorem tryRunDown_none_of_invalid {lo hi : Nat} {l : List Char}
    (hinv : validRun lo hi (l.takeWhile isWordChar) = false) :
    ∀ k, k ≤ hi → tryRunDown lo l k = none := by
  have hlens : (l.takeWhile isWordChar).length + (l.dropWhile isWordChar).length = l.length := by
    have h := congrArg List.length (List.takeWhile_append_dropWhile (p := isWordChar) (l := l))
    rw [List.length_append] at h
    exact h
  intro k
  induction k with
  | zero => intro _; rfl
  | succ n ih =>
    intro hk
    have hcond : (decide (lo ≤ n + 1) && ((l.take (n + 1)).length == n + 1) &&
        (l.take (n + 1)).all isBase58Char && boundaryAfter (l.drop (n + 1))) = false := by
      by_cases hlen : l.length < n + 1
      · have hne : ((l.take (n + 1)).length == n + 1) = false := by
          rw [List.length_take]
          simp only [beq_eq_false_iff_ne, ne_eq]
          omega
        rw [hne]
        simp
      · push_neg at hlen
        rcases Nat.lt_trichotomy (n + 1) (l.takeWhile isWordChar).length with hlt | heq | hgt
        · -- the candidate ends inside the word run: no boundary after it
          have hdropsplit : l.drop (n + 1) =
              (l.takeWhile isWordChar).drop (n + 1) ++ l.dropWhile isWordChar := by
            conv_lhs => rw [← List.takeWhile_append_dropWhile (p := isWordChar) (l := l)]
            rw [List.drop_append_eq_append_drop,
              show n + 1 - (l.takeWhile isWordChar).length = 0 from by omega, List.drop_zero]
          have hlen2 : ((l.takeWhile isWordChar).drop (n + 1)).length =
              (l.takeWhile isWordChar).length - (n + 1) := List.length_drop _ _
          cases hd : (l.takeWhile isWordChar).drop (n + 1) with
          | nil => rw [hd] at hlen2; simp at hlen2; omega
          | cons d ds =>
            have hdmem : d ∈ l.takeWhile isWordChar := by
              have hmem : d ∈ (l.takeWhile isWordChar).drop (n + 1) := by
                rw [hd]; exact List.mem_cons_self d ds
              exact (List.drop_sublist _ _).subset hmem
            have hdw : isWordChar d = true := mem_takeWhile_pred hdmem
            have hbf : boundaryAfter (l.drop (n + 1)) = false := by
              rw [hdropsplit, hd, List.cons_append]
              simp [boundaryAfter, hdw]
            rw [hbf]
            simp
        · -- the candidate is exactly the word run
          have hcand : l.take (n + 1) = l.takeWhile isWordChar := by
            conv_lhs => rw [← List.takeWhile_append_dropWhile (p := isWordChar) (l := l)]
            rw [List.take_append_eq_append_take, List.take_of_length_le (by omega),
              show n + 1 - (l.takeWhile isWordChar).length = 0 from by omega,
              List.take_zero, List.append_nil]
          rw [hcand]
          by_cases hall : (l.takeWhile isWordChar).all isBase58Char = true
          · by_cases hlo2 : lo ≤ (l.takeWhile isWordChar).length
            · exfalso
              have hv : validRun lo hi (l.takeWhile isWordChar) = true := by
                rw [validRun, hall, decide_eq_true hlo2,
                  decide_eq_true (show (l.takeWhile isWordChar).length ≤ hi from by omega)]
                rfl
              rw [hv] at hinv
              cases hinv
            · have hdf : decide (lo ≤ n + 1) = false := decide_eq_false (by omega)
              rw [hdf]
              simp
          · have hallf : (l.takeWhile isWordChar).all isBase58Char = false := by
              simpa using hall
            rw [hallf]
            simp
        · -- the candidate extends past the word run: a non-word character inside
          cases hd : l.dropWhile isWordChar with
          | nil => rw [hd] at hlens; simp at hlens; omega
          | cons r rs =>
            have hrw : isWordChar r = false := dropWhile_head_not hd
            have hrb : isBase58Char r = false := isWord_false_isBase58_false hrw
            have hdl : (l.dropWhile isWordChar).length = rs.length + 1 := by rw [hd]; rfl
            have hsplit : l.take (n + 1) =
                l.takeWhile isWordChar ++ r :: rs.take (n - (l.takeWhile isWordChar).length) := by
              conv_lhs => rw [← List.takeWhile_append_dropWhile (p := isWordChar) (l := l)]
              rw [List.take_append_eq_append_take, List.take_of_length_le (by omega), hd,
                show n + 1 - (l.takeWhile isWordChar).length =
                  (n - (l.takeWhile isWordChar).length) + 1 from by omega, List.take_succ_cons]
            have hcand : (l.take (n + 1)).all isBase58Char = false := by
              rw [hsplit, List.all_append, List.all_cons, hrb, Bool.false_and, Bool.and_false]
            rw [hcand]
            simp
    rw [tryRunDown]
    simp only [hcond, Bool.false_eq_true, if_false]
    exact ih (by omega)

theorem wordRuns_nil : wordRuns ([] : List Char) = [] := by
  simp [wordRuns]

theorem scanBase58_skip_words {lo hi : Nat} :
    ∀ {w rest : List Char}, w.all isWordChar = true →
      scanBase58 lo hi true (w ++ rest) = scanBase58 lo hi true rest := by
  intro w rest h
  induction w with
  | nil => rfl
  | cons c cs ih =>
    simp only [List.all_cons, Bool.and_eq_true] at h
    rw [List.cons_append, scanBase58, if_pos rfl, h.1]
    exact ih h.2

theorem scanBase58_true_step {lo hi : Nat} {c : Char} {cs : List Char} :
    scanBase58 lo hi true (c :: cs) = scanBase58 lo hi (isWordChar c) cs := by
  rw [scanBase58, if_pos rfl]

theorem scanBase58_false_cons {lo hi : Nat} {c : Char} {cs : List Char}
    (hnone : tryRunDown lo (c :: cs) hi = none) :
    scanBase58 lo hi false (c :: cs) = scanBase58 lo hi (isWordChar c) cs := by
  rw [scanBase58]
  simp only [Bool.false_eq_true, if_false]
  rw [hnone]

/-- The fallback scan `/\b([1-9A-HJ-NP-Za-km-z]{lo,hi})\b/g` (first
match) returns exactly the first maximal word-character run that is
entirely base58 and has length within the bounds — the specification's
"first base58-alphabet token of valid length". -/
theorem scanBase58_eq_firstValidRun {lo hi : Nat} :
    ∀ l : List Char, scanBase58 lo hi false l = firstValidRun lo hi l := by
  have main : ∀ n, ∀ l : List Char, l.length ≤ n →
      scanBase58 lo hi false l = firstValidRun lo hi l := by
    intro n
    induction n with
    | zero =>
      intro l hl
      rw [List.length_eq_zero.mp (Nat.le_zero.mp hl), firstValidRun, wordRuns_nil]
      rfl
    | succ n ih =>
      intro l hl
      cases l with
      | nil => rw [firstValidRun, wordRuns_nil]; rfl
      | cons c cs =>
        have hcs : cs.length ≤ n := by
          simp only [List.length_cons] at hl
          omega
        by_cases hw : isWordChar c = true
        · -- the position starts a word run
          have hruntake : (c :: cs).takeWhile isWordChar = c :: cs.takeWhile isWordChar := by
            rw [List.takeWhile_cons_of_pos hw]
          have hrundrop : (c :: cs).dropWhile isWordChar = cs.dropWhile isWordChar := by
            rw [List.dropWhile_cons_of_pos hw]
          have hdecomp : c :: cs = (c :: cs.takeWhile isWordChar) ++ cs.dropWhile isWordChar := by
            rw [List.cons_append, List.takeWhile_append_dropWhile]
          have hbrest : boundaryAfter (cs.dropWhile isWordChar) = true := by
            cases hr : cs.dropWhile isWordChar with
            | nil => rfl
            | cons r rs => simp [boundaryAfter, dropWhile_head_not hr]
          have hwr : wordRuns (c :: cs) =
              (c :: cs.takeWhile isWordChar) :: wordRuns (cs.dropWhile isWordChar) := by
            rw [wordRuns, if_pos hw]
          by_cases hv : validRun lo hi (c :: cs.takeWhile isWordChar) = true
          · -- valid run: both sides return it
            have hparts : (c :: cs.takeWhile isWordChar).all isBase58Char = true ∧
                lo ≤ (c :: cs.takeWhile isWordChar).length ∧
                (c :: cs.takeWhile isWordChar).length ≤ hi := by
              rw [validRun] at hv
              simp only [Bool.and_eq_true, decide_eq_true_eq] at hv
              exact ⟨hv.1.1, hv.1.2, hv.2⟩
            have hscan : tryRunDown lo (c :: cs) hi = some (c :: cs.takeWhile isWordChar) := by
              conv_lhs => rw [hdecomp]
              exact tryRunDown_some_of_run hparts.1 hbrest hparts.2.1 (by simp) hparts.2.2
            rw [scanBase58]
            simp only [Bool.false_eq_true, if_false]
            rw [hscan, firstValidRun, hwr, List.find?_cons_of_pos _ hv]
          · -- invalid run: both sides skip it
            have hvf : validRun lo hi ((c :: cs).takeWhile isWordChar) = false := by
              rw [hruntake]
              simpa using hv
            have hnone : tryRunDown lo (c :: cs) hi = none :=
              tryRunDown_none_of_invalid hvf hi (le_refl hi)
            rw [scanBase58_false_cons hnone, hw]
            have hcssplit : scanBase58 lo hi true cs =
                scanBase58 lo hi true (cs.dropWhile isWordChar) := by
              conv_lhs => rw [← List.takeWhile_append_dropWhile (p := isWordChar) (l := cs)]
              refine scanBase58_skip_words ?_
              rw [List.all_eq_true]
              intro x hx
              exact mem_takeWhile_pred hx
            rw [hcssplit, firstValidRun, hwr,
              List.find?_cons_of_neg _ (by simpa using hv)]
            cases hr : cs.dropWhile isWordChar with
            | nil => rw [wordRuns_nil]; rfl
            | cons r rs =>
              have hrw : isWordChar r = false := dropWhile_head_not hr
              have hrs : rs.length ≤ n := by
                have h1 : (cs.dropWhile isWordChar).length ≤ cs.length :=
                  (List.dropWhile_sublist _).length_le
                rw [hr] at h1
                simp only [List.length_cons] at h1
                omega
              rw [scanBase58_true_step, hrw]
              have hwr2 : wordRuns (r :: rs) = wordRuns rs := by
                rw [wordRuns, if_neg (by simp [hrw])]
              rw [show (List.find? (validRun lo hi) (wordRuns (r :: rs))) =
                firstValidRun lo hi (r :: rs) from rfl]
              rw [firstValidRun, hwr2, ← firstValidRun]
              exact ih rs hrs
        · -- non-word position: both sides skip the character
          have hwf : isWordChar c = false := by simpa using hw
          have hnone : tryRunDown lo (c :: cs) hi = none :=
            tryRunDown_none_of_head (isWord_false_isBase58_false hwf) hi
          rw [scanBase58_false_cons hnone, hwf]
          have hwr : wordRuns (c :: cs) = wordRuns cs := by
            rw [wordRuns, if_neg (by simp [hwf])]
          rw [firstValidRun, hwr, ← firstValidRun]
          exact ih cs hcs
  intro l
  exact main l.length l (le_refl _)

/-! ## Claim C3: program-identifier extraction -/

/-- **C3.** (1) Output containing the labelled entry
`Program Id: <token>` with an alphanumeric token of length 32–44 (no
label-like text before it, the token properly delimited) yields exactly
that token.  (2) With no labelled match, extraction returns the first
base58 token of length 32–44 (first maximal word run, per
`firstValidRun`).  (3) When neither strategy matches, it returns
`none`. -/
theorem extractProgramId_characterization :
    (∀ pre token rest : List Char,
      (∀ c ∈ pre, isAlnumChar c = false) →
      token.all isAlnumChar = true → 32 ≤ token.length → token.length ≤ 44 →
      (∀ c, rest.head? = some c → isAlnumChar c = false) →
      extractProgramId (pre ++ ("Program Id: ".data ++ (token ++ rest))) = some token) ∧
    (∀ out : List Char, labeledProgramId out = none →
      extractProgramId out = firstValidRun 32 44 out) ∧
    (∀ out : List Char, labeledProgramId out = none → firstValidRun 32 44 out = none →
      extractProgramId out = none) := by
  refine ⟨?_, ?_, ?_⟩
  · intro pre token rest hpre htok h32 h44 hrest
    obtain ⟨t, ts, rfl⟩ : ∃ t ts, token = t :: ts := by
      cases token with
      | nil => simp at h32
      | cons t ts => exact ⟨t, ts, rfl⟩
    have ht : isAlnumChar t = true := by
      simp only [List.all_cons, Bool.and_eq_true] at htok
      exact htok.1
    have hmask : ∀ c ∈ pre, ∀ r, matchLabelAt "Program Id:".data 32 44 (c :: r) = none := by
      intro c hc r
      have hci := ciEq_P_of_not_alnum (hpre c hc)
      rw [show ("Program Id:".data) = 'P' :: "rogram Id:".data from rfl, matchLabelAt]
      rw [show dropLabelCI ('P' :: "rogram Id:".data) (c :: r) =
        if ciEq 'P' c then dropLabelCI "rogram Id:".data r else none from rfl]
      rw [hci]
      simp
    have hat : matchLabelAt "Program Id:".data 32 44
        ("Program Id: ".data ++ ((t :: ts) ++ rest)) = some (t :: ts) := by
      have hlbl : dropLabelCI "Program Id:".data ("Program Id: ".data ++ ((t :: ts) ++ rest)) =
          some (' ' :: ((t :: ts) ++ rest)) := by
        rw [show ("Program Id: ".data ++ ((t :: ts) ++ rest)) =
          "Program Id:".data ++ (' ' :: ((t :: ts) ++ rest)) from rfl]
        exact dropLabelCI_self_append _ _
      have hsp : (' ' :: ((t :: ts) ++ rest)).dropWhile isSpaceChar = (t :: ts) ++ rest := by
        rw [List.dropWhile_cons_of_pos (by decide), List.cons_append,
          List.dropWhile_cons_of_neg (by simp [alnum_not_space ht])]
      have htw : ((t :: ts) ++ rest).takeWhile isAlnumChar = t :: ts := by
        rw [takeWhile_append_of_all htok, takeWhile_head_false hrest, List.append_nil]
      rw [matchLabelAt, hlbl]
      simp only [hsp, htw]
      rw [if_pos (decide_eq_true h32), List.take_of_length_le h44]
    have hscan1 : scanMatch (matchLabelAt "Program Id:".data 32 44)
        (pre ++ ("Program Id: ".data ++ ((t :: ts) ++ rest))) = some (t :: ts) := by
      rw [scanMatch_append_none hmask]
      exact scanMatch_head_some (by simp) hat
    have hlab : labeledProgramId (pre ++ ("Program Id: ".data ++ ((t :: ts) ++ rest))) =
        some (t :: ts) := by
      rw [labeledProgramId, hscan1]
    rw [extractProgramId, hlab]
  · intro out h
    rw [extractProgramId, h]
    exact scanBase58_eq_firstValidRun out
  · intro out h h2
    rw [extractProgramId, h]
    rw [scanBase58_eq_firstValidRun out]
    exact h2

/-- Witness for C3 at concrete outputs: a labelled 32-character token is
returned exactly; an output matching neither strategy yields `none`. -/
theorem extractProgramId_characterization_witness :
    extractProgramId (", ".data ++ ("Program Id: ".data ++
      (List.replicate 32 '2' ++ "\n".data))) = some (List.replicate 32 '2') ∧
    labeledProgramId "hello".data = none ∧
    extractProgramId "hello".data = none := by
  have h1 : labeledProgramId "hello".data = none := by decide
  have h2 : extractProgramId "hello".data = none := by decide
  have h3 : firstValidRun 32 44 "hello".data = none :=
    (extractProgramId_characterization.2.1 "hello".data h1).symm.trans h2
  refine ⟨?_, h1, extractProgramId_characterization.2.2 "hello".data h1 h3⟩
  refine extractProgramId_characterization.1 ", ".data (List.replicate 32 '2') "\n".data
    ?_ (by decide) (by decide) (by decide) ?_
  · intro c hc
    have : c = ',' ∨ c = ' ' := by
      rcases List.mem_cons.mp hc with rfl | hc2
      · exact Or.inl rfl
      · rcases List.mem_cons.mp hc2 with rfl | hc3
        · exact Or.inr rfl
        · cases hc3
    rcases this with rfl | rfl
    · decide
    · decide
  · intro c hc
    rw [show ("\n".data).head? = some '\n' from rfl] at hc
    cases hc
    decide

/-! ## Claim C1: teardown across the orchestrated pipeline -/

theorem cloneRepository_cases (env : CloneEnv) (fs : WorldFS) :
    (∃ out, env.cloneResult = .ok out ∧
      cloneRepository env fs = (.ok (), ⟨true, fs.walletFileExists, fs.defaultKeyExists⟩)) ∨
    (∃ out e, env.cloneResult = .ok out ∧
      cloneRepository env fs = (.error e, ⟨false, fs.walletFileExists, fs.defaultKeyExists⟩)) ∨
    (∃ m e, env.cloneResult = .err m ∧
      cloneRepository env fs =
        (.error e, ⟨env.dirLeftOnFailure, fs.walletFileExists, fs.defaultKeyExists⟩)) := by
  rcases hcr : env.cloneResult with out | m
  · by_cases hsz : MAX_REPO_SIZE_MB < (env.dirSizeBytes : ℚ) / (1024 * 1024)
    · right; left
      have hpf : cloneRepository env fs =
          (.error (CloneError "Repository size exceeds maximum allowed".data
            (.sizeD ((env.dirSizeBytes : ℚ) / (1024 * 1024)) MAX_REPO_SIZE_MB) []),
           ⟨false, fs.walletFileExists, fs.defaultKeyExists⟩) := by
        simp [cloneRepository, hcr, hsz]
      exact ⟨out, _, rfl, hpf⟩
    · left
      have hpf : cloneRepository env fs =
          (.ok (), ⟨true, fs.walletFileExists, fs.defaultKeyExists⟩) := by
        simp [cloneRepository, hcr, hsz]
      exact ⟨out, rfl, hpf⟩
  · right; right
    have hpf : cloneRepository env fs =
        (.error (CloneError "Failed to clone repository".data (.textD m) []),
         ⟨env.dirLeftOnFailure, fs.walletFileExists, fs.defaultKeyExists⟩) := by
      simp [cloneRepository, hcr]
    exact ⟨m, _, rfl, hpf⟩

theorem setupWallet_cases (g s d : Except (List Char) Unit) (wa : List Char) (fs : WorldFS) :
    (setupWallet g s d wa fs = (.ok wa, ⟨fs.wsExists, true, true⟩)) ∨
    (∃ e, setupWallet g s d wa fs = (.error e, fs)) ∨
    (s = .ok () ∧ (∃ m, d = .error m) ∧
      ∃ e, setupWallet g s d wa fs = (.error e, ⟨fs.wsExists, true, false⟩)) := by
  rcases g with m | u
  · right; left
    have hpf : setupWallet (.error m) s d wa fs =
        (.error (WalletError "Failed to generate wallet keypair".data (.textD m)), fs) := by
      simp [setupWallet]
    exact ⟨_, hpf⟩
  · cases u
    rcases s with m | u
    · right; left
      have hpf : setupWallet (.ok ()) (.error m) d wa fs =
          (.error (WalletError "Failed to save wallet keypair".data (.textD m)), fs) := by
        simp [setupWallet]
      exact ⟨_, hpf⟩
    · cases u
      rcases d with m | u
      · right; right
        have hpf : setupWallet (.ok ()) (.ok ()) (.error m) wa fs =
            (.error (WalletError "Failed to set default wallet".data (.textD m)),
             ⟨fs.wsExists, true, false⟩) := by
          simp [setupWallet]
        exact ⟨rfl, ⟨m, rfl⟩, _, hpf⟩
      · cases u
        left
        simp [setupWallet]

/-- The only filesystem states a finished run can leave behind: nothing;
a partial directory left by a failed clone command; or the saved wallet
file of a wallet setup whose default-keypair copy failed. -/
theorem orchestrate_final_fs (env : OrchEnv) (network : Network) :
    (orchestrateDeployment env network).2 = ⟨false, false, false⟩ ∨
    ((orchestrateDeployment env network).2 = ⟨env.cloneEnv.dirLeftOnFailure, false, false⟩ ∧
      ∃ m, env.cloneEnv.cloneResult = .err m) ∨
    ((orchestrateDeployment env network).2 = ⟨false, true, false⟩ ∧
      env.saveKeypair = .ok () ∧ ∃ m, env.setDefault = .error m) := by
  rcases cloneRepository_cases env.cloneEnv ⟨false, false, false⟩ with
    ⟨out, hcr, hclone⟩ | ⟨out, e, hcr, hclone⟩ | ⟨m, e, hcr, hclone⟩
  · -- clone succeeded, workspace present
    rcases hval : validateAnchorProject env.projectFS with e | cfg
    · left
      simp [orchestrateDeployment, hclone, hval, finalizeRun, cleanupDirectory, cleanupWallet]
    · rcases hcc : configureCluster env.clusterResult with e | u
      · left
        simp [orchestrateDeployment, hclone, hval, hcc, finalizeRun, cleanupDirectory,
          cleanupWallet]
      · rcases setupWallet_cases env.genKeypair env.saveKeypair env.setDefault
          env.walletAddress ⟨true, false, false⟩ with hsw | ⟨e2, hsw⟩ | ⟨hs, ⟨m2, hd⟩, e2, hsw⟩
        · -- wallet setup succeeded
          rcases hfund : ensureFunding env.fundingEnv env.walletAddress network with ⟨res, st⟩
          rcases res with e3 | b
          · left
            simp [orchestrateDeployment, hclone, hval, hcc, hsw, hfund, finalizeRun,
              cleanupDirectory, cleanupWallet]
          · rcases hbuild : buildProgram env.buildResult with e4 | outb
            · left
              simp [orchestrateDeployment, hclone, hval, hcc, hsw, hfund, hbuild, finalizeRun,
                cleanupDirectory, cleanupWallet]
            · rcases hdep : deployProgram env.deployResult with e5 | dres
              · left
                simp [orchestrateDeployment, hclone, hval, hcc, hsw, hfund, hbuild, hdep,
                  finalizeRun, cleanupDirectory, cleanupWallet]
              · left
                simp [orchestrateDeployment, hclone, hval, hcc, hsw, hfund, hbuild, hdep,
                  finalizeRun, cleanupDirectory, cleanupWallet]
        · -- generate or save failed: wallet file never created
          left
          simp [orchestrateDeployment, hclone, hval, hcc, hsw, finalizeRun, cleanupDirectory,
            cleanupWallet]
        · -- default-keypair copy failed after the wallet file was saved
          right; right
          refine ⟨?_, hs, m2, hd⟩
          simp [orchestrateDeployment, hclone, hval, hcc, hsw, finalizeRun, cleanupDirectory,
            cleanupWallet]
    -- (size-failure and command-failure clone branches below)
  · left
    simp [orchestrateDeployment, hclone, finalizeRun, cleanupDirectory, cleanupWallet]
  · right; left
    refine ⟨?_, m, hcr⟩
    simp [orchestrateDeployment, hclone, finalizeRun, cleanupDirectory, cleanupWallet]

/-- **C1 (counterexample).** In a run whose clone, validation and
cluster configuration succeed and whose wallet setup fails while copying
the saved keypair into the shared default slot, the run fails at the
wallet-setup step and the deployment-scoped wallet keypair file still
exists after the run — teardown did not remove it, because `keypairPath`
was never assigned. -/
theorem orchestrate_walletFile_leak :
    (orchestrateDeployment walletLeakEnv .devnet).2.walletFileExists = true ∧
    ∃ e, (orchestrateDeployment walletLeakEnv .devnet).1 = .error e ∧
      e.code = .WALLET_ERROR := by
  have hsz : ¬ (MAX_REPO_SIZE_MB <
      ((walletLeakEnv.cloneEnv.dirSizeBytes : ℚ)) / (1024 * 1024)) := by
    show ¬ ((500 : ℚ) < ((0 : Nat) : ℚ) / (1024 * 1024))
    norm_num
  have hclone : cloneRepository walletLeakEnv.cloneEnv ⟨false, false, false⟩ =
      (.ok (), ⟨true, false, false⟩) := by
    simp only [cloneRepository,
      show walletLeakEnv.cloneEnv.cloneResult = ExecResult.ok [] from rfl]
    rw [if_neg hsz]
  have horch : orchestrateDeployment walletLeakEnv .devnet =
      (.error (WalletError "Failed to set default wallet".data
        (.textD "copyFileSync failed".data)), ⟨false, true, false⟩) := by
    rw [orchestrateDeployment, hclone]
    rfl
  rw [horch]
  exact ⟨rfl, _, rfl, rfl⟩

/-- **C1 (amended).** Teardown removes the workspace and the wallet file
on every exit path except two: the workspace survives only a clone whose
command failed leaving a partial directory (`projectPath` never
assigned), and the wallet keypair file survives only a wallet setup that
saved the file and then failed to set it as the default CLI keypair
(`keypairPath` never assigned); the shared default-keypair slot never
survives a run. -/
theorem orchestrate_teardown_characterization (env : OrchEnv) (network : Network) :
    ((orchestrateDeployment env network).2.wsExists = true →
      (∃ m, env.cloneEnv.cloneResult = .err m) ∧ env.cloneEnv.dirLeftOnFailure = true) ∧
    ((orchestrateDeployment env network).2.walletFileExists = true →
      env.saveKeypair = .ok () ∧ ∃ m, env.setDefault = .error m) ∧
    (orchestrateDeployment env network).2.defaultKeyExists = false := by
  rcases orchestrate_final_fs env network with h | ⟨h, m, hcr⟩ | ⟨h, hs, hd⟩
  · rw [h]
    refine ⟨?_, ?_, rfl⟩
    · intro hc; cases hc
    · intro hc; cases hc
  · rw [h]
    refine ⟨?_, ?_, rfl⟩
    · intro hleft
      exact ⟨⟨m, hcr⟩, hleft⟩
    · intro hc; cases hc
  · rw [h]
    refine ⟨?_, ?_, rfl⟩
    · intro hc; cases hc
    · intro _
      exact ⟨hs, hd⟩

/-- Witness for the amended C1: the wallet-leak run exercises the
wallet-file clause (its antecedent holds), and a fully successful run
leaves no shared default keypair behind. -/
theorem orchestrate_teardown_characterization_witness :
    (orchestrateDeployment walletLeakEnv .devnet).2.walletFileExists = true ∧
    (walletLeakEnv.saveKeypair = .ok () ∧ ∃ m, walletLeakEnv.setDefault = .error m) ∧
    (orchestrateDeployment happyEnv .devnet).2.defaultKeyExists = false := by
  have hsz : ¬ (MAX_REPO_SIZE_MB <
      ((walletLeakEnv.cloneEnv.dirSizeBytes : ℚ)) / (1024 * 1024)) := by
    show ¬ ((500 : ℚ) < ((0 : Nat) : ℚ) / (1024 * 1024))
    norm_num
  have hclone : cloneRepository walletLeakEnv.cloneEnv ⟨false, false, false⟩ =
      (.ok (), ⟨true, false, false⟩) := by
    simp only [cloneRepository,
      show walletLeakEnv.cloneEnv.cloneResult = ExecResult.ok [] from rfl]
    rw [if_neg hsz]
  have horch : orchestrateDeployment walletLeakEnv .devnet =
      (.error (WalletError "Failed to set default wallet".data
        (.textD "copyFileSync failed".data)), ⟨false, true, false⟩) := by
    rw [orchestrateDeployment, hclone]
    rfl
  have hwl : (orchestrateDeployment walletLeakEnv .devnet).2.walletFileExists = true := by
    rw [horch]
  exact ⟨hwl, (orchestrate_teardown_characterization walletLeakEnv .devnet).2.1 hwl,
    (orchestrate_teardown_characterization happyEnv .devnet).2.2⟩

end SolanaService
